import Mathlib

/-!
Shallow embedding of `gravitational_potential_solar_system.py` over exact
rational arithmetic.  Each definition mirrors one function or expression of
the source file; machine floats are modelled by `ℚ`, NumPy ranges by explicit
Lean lists, and the effectful cache-or-fetch data provider by explicit
`Except` values for the two fallible operations.
-/

/-- Embeds the module constant `G = 7.4 * 10**(-28)`. -/
def G : ℚ := 7.4 * (10 : ℚ) ^ (-28 : ℤ)

/-- Embeds the module constant `M_sun = 1.989 * 10**30`. -/
def M_sun : ℚ := 1.989 * (10 : ℚ) ^ (30 : ℕ)

/-- Embeds the module constant `R_sun = 7 * 10**8`. -/
def R_sun : ℚ := 7 * (10 : ℚ) ^ (8 : ℕ)

/-- Embeds `get_phi(M, R, S)`: piecewise Newtonian potential, uniform-density
interior for `S < R`, point mass otherwise.  Note that in `ℚ` a division by
zero yields `0` where Python would raise; the safety claims below show the
zero-divisor situation is unreachable when `R > 0` and `S ≥ 0`. -/
def get_phi (M R S : ℚ) : ℚ :=
  if S < R then G * M * (S ^ 2 - 3 * R ^ 2) / (2 * R ^ 3) else -G * M / S

/-- Embeds `np.linspace(a, b, num)`: `num` evenly spaced points from `a` to
`b` inclusive (for `num ≥ 2`; the program only uses `num = n_subticks + 2`). -/
def linspace (a b : ℚ) (num : ℕ) : List ℚ :=
  (List.range' 0 num).map (fun k : ℕ => a + (b - a) * k / ((num : ℚ) - 1))

/-- Embeds the `subs` sequence `np.linspace(0, 1.0, n_subticks + 2)[1:-1]`
passed to the minor `LogLocator` by `restore_minor_ticks_log_plot`. -/
def restore_minor_ticks_subs (n_subticks : ℕ) : List ℚ :=
  ((linspace 0 1 (n_subticks + 2)).drop 1).dropLast

/-- The `subs` sequence actually installed by the renderer: the call
`restore_minor_ticks_log_plot(ax)` uses the declared default
`n_subticks = 9`. -/
def renderer_minor_subs : List ℚ :=
  restore_minor_ticks_subs 9

/-- Embeds `get_solar_system_data`: the cache read (`open` + `json.load`) is
an `Except ε₁ α` (any exception is an `.error`), the network fetch plus JSON
decode is an `Except ε₂ α`.  The result pairs the returned data with the
content written to the cache file (`none` = file untouched).  A failing
fetch is not caught and propagates as `.error`. -/
def get_solar_system_data {α ε₁ ε₂ : Type} (cacheRead : Except ε₁ α)
    (fetch : Except ε₂ α) : Except ε₂ (α × Option α) :=
  match cacheRead with
  | Except.ok d => Except.ok (d, none)
  | Except.error _ =>
    match fetch with
    | Except.ok d => Except.ok (d, some d)
    | Except.error e => Except.error e

/-- One raw dataset entry of the planetary factsheet JSON, with the three
keys the program reads. -/
structure RawPlanet where
  mass10_24Kg : ℚ
  semimajorAxis10_6Km : ℚ
  volumetricMeanRadiusKm : ℚ

/-- One body after unit conversion: mass `M` (kg), orbital distance `S` (m),
radius `R` (m) — the dict `{'M': ..., 'S': ..., 'R': ...}`. -/
structure Body where
  M : ℚ
  S : ℚ
  R : ℚ

/-- Embeds the dict comprehension of `solar_system_gravitational_potential`
plus the injection `data['sun'] = {...}`: converts units
(`*10**24`, `*10**9`, `*10**3`) and appends the synthetic Sun entry with
`S = 0` and the module constants.  (Python dict insertion order is the
list order here; the real dataset contains no `'sun'` key.) -/
def mkData (raw : List (String × RawPlanet)) : List (String × Body) :=
  raw.map (fun x =>
    (x.1, { M := x.2.mass10_24Kg * 10 ^ (24 : ℕ)
            S := x.2.semimajorAxis10_6Km * 10 ^ (9 : ℕ)
            R := x.2.volumetricMeanRadiusKm * 10 ^ (3 : ℕ) }))
    ++ [("sun", { M := M_sun, S := 0, R := R_sun })]

/-- Embeds Python's `max` on a nonempty list (the `[]` case is arbitrary:
Python raises there, and the program always passes a nonempty dict). -/
def pymax : List ℚ → ℚ
  | [] => 0
  | [x] => x
  | x :: y :: t => max x (pymax (y :: t))

/-- Embeds `max_S = max(p['S'] for p in data.values())*1.2`. -/
def max_S (data : List (String × Body)) : ℚ :=
  pymax (data.map (fun x => x.2.S)) * 1.2

/-- Number of samples `np.arange(0, stop, step)` produces in exact
arithmetic: `⌈stop/step⌉` clamped to `ℕ`. -/
def arangeLen (stop step : ℚ) : ℕ :=
  (Int.ceil (stop / step)).toNat

/-- Embeds `np.arange(0, stop, step)` in exact arithmetic: the points
`k * step` for `k = 0, 1, ..., ⌈stop/step⌉ - 1`. -/
def arange (stop step : ℚ) : List ℚ :=
  (List.range' 0 (arangeLen stop step)).map (fun k : ℕ => (k : ℚ) * step)

/-- Embeds `base_S_range = np.arange(0, max_S, S_bin)` with
`S_bin = max_S/1000`. -/
def base_S_range (data : List (String × Body)) : List ℚ :=
  arange (max_S data) (max_S data / 1000)

/-- Embeds `S_range = np.arange(0, S_max, S_step)` for one body, with
`S_step = p['R']/100` and `S_max = p['R']*100`. -/
def denseGrid (p : Body) : List ℚ :=
  arange (p.R * 100) (p.R / 100)

/-- Embeds the dense-grid loop of one body: for each offset `S` append
`(p.S + S, -get_phi(...))` and, when `p.S - S > 0`, also
`(p.S - S, -get_phi(...))` with the same value. -/
def denseSamples (p : Body) : List (ℚ × ℚ) :=
  (denseGrid p).flatMap (fun S =>
    (p.S + S, -get_phi p.M p.R S) ::
      (if 0 < p.S - S then [(p.S - S, -get_phi p.M p.R S)] else []))

/-- Embeds the coarse-grid loop of one body: for each `S` of `base_S_range`
append `(S, -get_phi(p.M, p.R, abs(p.S - S)))`. -/
def coarseSamples (p : Body) (base : List ℚ) : List (ℚ × ℚ) :=
  base.map (fun S => (S, -get_phi p.M p.R |p.S - S|))

/-- A body's full curve `phi[name]`: dense samples then coarse samples, in
append order of the source loops. -/
def bodyCurve (p : Body) (base : List ℚ) : List (ℚ × ℚ) :=
  denseSamples p ++ coarseSamples p (base)

/-- All per-body curves, keyed by name, in dict order. -/
def curves (data : List (String × Body)) : List (String × List (ℚ × ℚ)) :=
  data.map (fun x => (x.1, bodyCurve x.2 (base_S_range data)))

/-- Embeds `all_S_values`: every distance value of every body curve,
duplicates retained. -/
def all_S_values (data : List (String × Body)) : List ℚ :=
  (curves data).flatMap (fun c => c.2.map Prod.fst)

/-- Embeds `sum(-get_phi(p['M'], p['R'], abs(p['S']-S)) for p in
data.values())` at one distance `S = d`. -/
def totalAt (data : List (String × Body)) (d : ℚ) : ℚ :=
  (data.map (fun x => -get_phi x.2.M x.2.R |x.2.S - d|)).sum

/-- Embeds `phi['all'] = [(S, sum(...)) for S in sorted(all_S_values)]`. -/
def allCurve (data : List (String × Body)) : List (ℚ × ℚ) :=
  ((all_S_values data).mergeSort (fun a b => decide (a ≤ b))).map
    (fun d => (d, totalAt data d))

/-! ### Helper lemmas -/

lemma G_eq : G = 74 / 10 ^ 29 := by
  norm_num [G]

lemma G_pos : 0 < G := by
  rw [G_eq]
  norm_num

lemma arangeLen_of_ratio (stop step : ℚ) (n : ℕ) (h : stop / step = n) :
    arangeLen stop step = n := by
  rw [arangeLen, h, Int.ceil_natCast, Int.toNat_natCast]

lemma mem_arange (stop step x : ℚ) :
    x ∈ arange stop step ↔ ∃ k : ℕ, k < arangeLen stop step ∧ x = k * step := by
  rw [arange]
  constructor
  · intro hx
    obtain ⟨k, hk, rfl⟩ := List.mem_map.mp hx
    rw [List.mem_range'_1] at hk
    exact ⟨k, by omega, rfl⟩
  · rintro ⟨k, hk, rfl⟩
    exact List.mem_map.mpr ⟨k, List.mem_range'_1.mpr ⟨Nat.zero_le _, by omega⟩, rfl⟩

lemma arange_nonneg (stop step x : ℚ) (hstep : 0 ≤ step) (hx : x ∈ arange stop step) :
    0 ≤ x := by
  obtain ⟨k, -, rfl⟩ := (mem_arange stop step x).mp hx
  exact mul_nonneg (by positivity) hstep

lemma arange_lt_stop (stop step x : ℚ) (hstep : 0 < step) (hx : x ∈ arange stop step) :
    x < stop := by
  obtain ⟨k, hk, rfl⟩ := (mem_arange stop step x).mp hx
  rw [arangeLen, Int.lt_toNat] at hk
  have hq : (k : ℚ) < stop / step := by
    exact_mod_cast Int.lt_ceil.mp hk
  exact (lt_div_iff₀ hstep).mp hq

/-! ### Claim theorems -/

/-- Claim C2: for every `M`, `R`, `S`, if `S < R` then
`get_phi M R S = G*M*(S^2 - 3*R^2) / (2*R^3)`, otherwise (`R ≤ S`)
`get_phi M R S = -G*M/S`, where `G` is the module's fixed gravitational
constant `7.4e-28`. -/
theorem get_phi_piecewise (M R S : ℚ) :
    (S < R → get_phi M R S = G * M * (S ^ 2 - 3 * R ^ 2) / (2 * R ^ 3))
    ∧ (R ≤ S → get_phi M R S = -G * M / S)
    ∧ G = 7.4e-28 := by
  refine ⟨fun h => ?_, fun h => ?_, by norm_num [G]⟩
  · rw [get_phi, if_pos h]
  · rw [get_phi, if_neg (not_lt.mpr h)]

/-- Witness for C2: both branches of `get_phi_piecewise` evaluated at
concrete inputs. -/
theorem get_phi_piecewise_witness :
    get_phi 1 2 1 = G * 1 * (1 ^ 2 - 3 * 2 ^ 2) / (2 * 2 ^ 3)
    ∧ get_phi 1 1 2 = -G * 1 / 2 :=
  ⟨(get_phi_piecewise 1 2 1).1 (by decide),
   (get_phi_piecewise 1 1 2).2.1 (by decide)⟩

/-- Claim C3: for `R > 0` the interior branch of `get_phi` evaluated at
`S = R` coincides with the exterior branch at `S = R` (both equal
`-G*M/R`), i.e. the piecewise potential is continuous at the body surface
in exact arithmetic. -/
theorem get_phi_continuous_at_R (M R : ℚ) (hR : 0 < R) :
    G * M * (R ^ 2 - 3 * R ^ 2) / (2 * R ^ 3) = -G * M / R
    ∧ get_phi M R R = -G * M / R := by
  have hR0 : R ≠ 0 := hR.ne'
  constructor
  · field_simp
    ring
  · rw [get_phi, if_neg (lt_irrefl R)]

/-- Witness for C3: continuity at the surface for the concrete body
`M = 1`, `R = 1`. -/
theorem get_phi_continuous_at_R_witness :
    (0 : ℚ) < 1
    ∧ (G * 1 * (1 ^ 2 - 3 * 1 ^ 2) / (2 * 1 ^ 3) = -G * 1 / 1
       ∧ get_phi 1 1 1 = -G * 1 / 1) :=
  ⟨by decide, get_phi_continuous_at_R 1 1 (by decide)⟩

/-- Claim C5: under the precondition `R > 0` (and a physical distance
`S ≥ 0`), evaluating `get_phi M R S` never divides by zero: in the interior
branch the denominator `2*R^3` is nonzero, in the exterior branch the
divisor `S` is nonzero, and the sampler's step `S_step = R/100` is
nonzero. -/
theorem get_phi_no_div_by_zero (M R S : ℚ) (hR : 0 < R) (hS : 0 ≤ S) :
    (S < R → 2 * R ^ 3 ≠ 0
       ∧ get_phi M R S = G * M * (S ^ 2 - 3 * R ^ 2) / (2 * R ^ 3))
    ∧ (¬ S < R → S ≠ 0 ∧ get_phi M R S = -G * M / S)
    ∧ R / 100 ≠ 0 := by
  refine ⟨fun h => ⟨by positivity, ?_⟩, fun h => ⟨?_, ?_⟩, ?_⟩
  · rw [get_phi, if_pos h]
  · exact (lt_of_lt_of_le hR (not_lt.mp h)).ne'
  · rw [get_phi, if_neg h]
  · exact div_ne_zero hR.ne' (by norm_num)

/-- Witness for C5: no division by zero at the concrete input
`M = 1`, `R = 1`, `S = 0`. -/
theorem get_phi_no_div_by_zero_witness :
    ((0 : ℚ) < 1 ∧ (0 : ℚ) ≤ 0)
    ∧ (((0 : ℚ) < 1 → 2 * (1 : ℚ) ^ 3 ≠ 0
          ∧ get_phi 1 1 0 = G * 1 * (0 ^ 2 - 3 * 1 ^ 2) / (2 * 1 ^ 3))
       ∧ (¬ (0 : ℚ) < 1 → (0 : ℚ) ≠ 0 ∧ get_phi 1 1 0 = -G * 1 / 0)
       ∧ (1 : ℚ) / 100 ≠ 0) :=
  ⟨⟨by decide, by decide⟩, get_phi_no_div_by_zero 1 1 0 (by decide) (by decide)⟩

/-- Claim C6: `get_solar_system_data` returns the parsed cache content when
the cache read succeeds, leaving the cache file unchanged (`none`); on any
cache-read failure it returns the fetch result, writing the fetched data to
the cache (`some`), and a failing fetch is not caught: its error
propagates (this is exactly `Except.map` over the fetch outcome). -/
theorem get_solar_system_data_spec (α ε₁ ε₂ : Type) (d : α) (e : ε₁)
    (fetch : Except ε₂ α) :
    get_solar_system_data (Except.ok d : Except ε₁ α) fetch = Except.ok (d, none)
    ∧ get_solar_system_data (Except.error e : Except ε₁ α) fetch
        = fetch.map (fun x => (x, some x)) := by
  refine ⟨rfl, ?_⟩
  cases fetch <;> rfl

/-- Claim C9 counterexample: the `subs` sequence the renderer passes to the
minor `LogLocator` (via `restore_minor_ticks_log_plot` with its default
`n_subticks = 9`) does not have 7 elements. -/
theorem renderer_minor_subs_not_seven :
    ¬ (renderer_minor_subs.length = 7) := by
  decide

/-- Claim C9 as amended: the renderer's minor-tick `subs` sequence has
exactly 9 elements, each strictly between 0 and 1 (evenly spaced). -/
theorem renderer_minor_subs_nine :
    renderer_minor_subs.length = 9
    ∧ renderer_minor_subs.Forall (fun x => 0 < x ∧ x < 1) := by
  constructor
  · decide
  · norm_num [renderer_minor_subs, restore_minor_ticks_subs, linspace,
      List.range', List.Forall]

/-- Claim C1: every sample `(d, v)` of the aggregate curve `"all"` has
`v` equal to the sum over all bodies `p` of `-get_phi(p.M, p.R, |p.S - d|)`
(that sum is `totalAt`), and the distance values of the `"all"` curve are
exactly the multiset of every distance value of every body's curve
(duplicates retained) in nondecreasing order. -/
theorem all_curve_spec (data : List (String × Body)) :
    (allCurve data).map Prod.snd
        = ((allCurve data).map Prod.fst).map (totalAt data)
    ∧ ((allCurve data).map Prod.fst).Perm (all_S_values data)
    ∧ ((allCurve data).map Prod.fst).Sorted (· ≤ ·) := by
  have hfst : (allCurve data).map Prod.fst
      = (all_S_values data).mergeSort (fun a b => decide (a ≤ b)) := by
    rw [allCurve, List.map_map]
    have hc : (Prod.fst ∘ fun d : ℚ => (d, totalAt data d)) = fun d : ℚ => d := rfl
    rw [hc, List.map_id']
  refine ⟨?_, ?_, ?_⟩
  · rw [hfst, allCurve, List.map_map]
    rfl
  · rw [hfst]
    exact List.mergeSort_perm _ _
  · rw [hfst]
    exact List.sorted_mergeSort' _

lemma base_S_range_eq (data : List (String × Body)) (h : max_S data ≠ 0) :
    base_S_range data
      = (List.range' 0 1000).map (fun k : ℕ => (k : ℚ) * (max_S data / 1000)) := by
  rw [base_S_range, arange, arangeLen_of_ratio (max_S data) (max_S data / 1000) 1000]
  push_cast
  field_simp

lemma denseGrid_eq (p : Body) (h : p.R ≠ 0) :
    denseGrid p
      = (List.range' 0 10000).map (fun k : ℕ => (k : ℚ) * (p.R / 100)) := by
  rw [denseGrid, arange, arangeLen_of_ratio (p.R * 100) (p.R / 100) 10000]
  push_cast
  field_simp
  ring

/-- Claim C7: `max_S` is 1.2 times the largest orbital distance over all
bodies (the injected Sun entry with `S = 0` included in `mkData`); the
shared coarse grid `base_S_range` is the 1000 points `k * (max_S/1000)`
for `k = 0, ..., 999`, all in `[0, max_S)`; and each body's dense grid is
the 10000 points `k * (p.R/100)` for `k = 0, ..., 9999`, all in
`[0, p.R*100)`. -/
theorem sampling_grids (raw : List (String × RawPlanet))
    (data : List (String × Body)) (p : Body) (hR : 0 < p.R)
    (hpy : 0 < pymax (data.map (fun x => x.2.S))) :
    ("sun", (Body.mk M_sun 0 R_sun)) ∈ mkData raw
    ∧ max_S data = 1.2 * pymax (data.map (fun x => x.2.S))
    ∧ base_S_range data
        = (List.range' 0 1000).map (fun k : ℕ => (k : ℚ) * (max_S data / 1000))
    ∧ (base_S_range data).Forall (fun x => 0 ≤ x ∧ x < max_S data)
    ∧ denseGrid p
        = (List.range' 0 10000).map (fun k : ℕ => (k : ℚ) * (p.R / 100))
    ∧ (denseGrid p).Forall (fun x => 0 ≤ x ∧ x < p.R * 100) := by
  have hmax : 0 < max_S data := by
    rw [max_S]
    exact mul_pos hpy (by norm_num)
  have hbin : 0 < max_S data / 1000 := by positivity
  have hstep : 0 < p.R / 100 := by positivity
  refine ⟨?_, ?_, ?_, ?_, ?_, ?_⟩
  · simp [mkData]
  · rw [max_S]
    ring
  · exact base_S_range_eq data hmax.ne'
  · exact List.forall_iff_forall_mem.mpr (fun x hx =>
      ⟨arange_nonneg _ _ x hbin.le hx, arange_lt_stop _ _ x hbin hx⟩)
  · exact denseGrid_eq p hR.ne'
  · exact List.forall_iff_forall_mem.mpr (fun x hx =>
      ⟨arange_nonneg _ _ x hstep.le hx, arange_lt_stop _ _ x hstep hx⟩)

/-- Witness for C7: the grids of a concrete one-body system with
`M = 1`, `S = 5`, `R = 1`. -/
theorem sampling_grids_witness :
    ((0 : ℚ) < (Body.mk 1 5 1).R
      ∧ 0 < pymax ([("sun", Body.mk 1 5 1)].map (fun x => x.2.S)))
    ∧ (("sun", (Body.mk M_sun 0 R_sun)) ∈ mkData []
       ∧ max_S [("sun", Body.mk 1 5 1)]
           = 1.2 * pymax ([("sun", Body.mk 1 5 1)].map (fun x => x.2.S))
       ∧ base_S_range [("sun", Body.mk 1 5 1)]
           = (List.range' 0 1000).map
               (fun k : ℕ => (k : ℚ) * (max_S [("sun", Body.mk 1 5 1)] / 1000))
       ∧ (base_S_range [("sun", Body.mk 1 5 1)]).Forall
           (fun x => 0 ≤ x ∧ x < max_S [("sun", Body.mk 1 5 1)])
       ∧ denseGrid (Body.mk 1 5 1)
           = (List.range' 0 10000).map
               (fun k : ℕ => (k : ℚ) * ((Body.mk 1 5 1).R / 100))
       ∧ (denseGrid (Body.mk 1 5 1)).Forall
           (fun x => 0 ≤ x ∧ x < (Body.mk 1 5 1).R * 100)) :=
  ⟨⟨by decide, by decide⟩,
   sampling_grids [] [("sun", Body.mk 1 5 1)] (Body.mk 1 5 1)
     (by decide) (by decide)⟩

lemma neg_get_phi_nonneg (M R S : ℚ) (hM : 0 ≤ M) (hS : 0 ≤ S)
    (hdef : ¬ S < R → S ≠ 0) : 0 ≤ -get_phi M R S := by
  rw [get_phi]
  split_ifs with h
  · have hR : 0 < R := lt_of_le_of_lt hS h
    rw [neg_nonneg]
    refine div_nonpos_iff.mpr (Or.inr ⟨?_, by positivity⟩)
    have h1 : S ^ 2 - 3 * R ^ 2 ≤ 0 := by nlinarith
    exact mul_nonpos_iff.mpr (Or.inl ⟨mul_nonneg G_pos.le hM, h1⟩)
  · have hS0 : 0 < S := lt_of_le_of_ne hS (Ne.symm (hdef h))
    have hrw : -G * M / S = -(G * M / S) := by ring
    rw [hrw, neg_neg]
    exact div_nonneg (mul_nonneg G_pos.le hM) hS0.le

lemma phi_body_nonneg (q : Body) (hqM : 0 ≤ q.M) (hqR : 0 < q.R) (d : ℚ)
    (hd : 0 ≤ d) : 0 ≤ -get_phi q.M q.R d :=
  neg_get_phi_nonneg q.M q.R d hqM hd
    (fun hnot => (lt_of_lt_of_le hqR (not_lt.mp hnot)).ne')

lemma bodyCurve_cases (p : Body) (base : List ℚ) (s : ℚ × ℚ)
    (hs : s ∈ bodyCurve p base) :
    (∃ S ∈ denseGrid p,
        s = (p.S + S, -get_phi p.M p.R S)
        ∨ (0 < p.S - S ∧ s = (p.S - S, -get_phi p.M p.R S)))
    ∨ (∃ S ∈ base, s = (S, -get_phi p.M p.R |p.S - S|)) := by
  rw [bodyCurve, List.mem_append] at hs
  rcases hs with hs | hs
  · left
    rw [denseSamples, List.mem_flatMap] at hs
    obtain ⟨S, hS, hmem⟩ := hs
    rw [List.mem_cons] at hmem
    rcases hmem with h | h
    · exact ⟨S, hS, Or.inl h⟩
    · by_cases hc : 0 < p.S - S
      · rw [if_pos hc, List.mem_singleton] at h
        exact ⟨S, hS, Or.inr ⟨hc, h⟩⟩
      · rw [if_neg hc] at h
        exact absurd h (List.not_mem_nil _)
  · right
    rw [coarseSamples, List.mem_map] at hs
    obtain ⟨S, hS, rfl⟩ := hs
    exact ⟨S, hS, rfl⟩

/-- Claim C4: for `M ≥ 0`, `R ≥ 0`, `S ≥ 0` with nonzero divisors (in the
exterior branch `S ≠ 0`), the stored magnitude `-get_phi M R S` is
nonnegative; consequently, for bodies with `M ≥ 0` and `R > 0`, every
sample value of every per-body curve and of the aggregate `"all"` curve is
nonnegative. -/
theorem magnitude_nonneg (M R S : ℚ) (data : List (String × Body))
    (hM : 0 ≤ M) (hR : 0 ≤ R) (hS : 0 ≤ S) (hdef : ¬ S < R → S ≠ 0)
    (hdata : data.Forall (fun x => 0 ≤ x.2.M ∧ 0 < x.2.R)) :
    0 ≤ -get_phi M R S
    ∧ (curves data).Forall (fun c => c.2.Forall (fun s => 0 ≤ s.2))
    ∧ (allCurve data).Forall (fun s => 0 ≤ s.2) := by
  refine ⟨neg_get_phi_nonneg M R S hM hS hdef, ?_, ?_⟩
  · rw [List.forall_iff_forall_mem]
    intro c hc
    rw [curves, List.mem_map] at hc
    obtain ⟨x, hx, rfl⟩ := hc
    have hxB := List.forall_iff_forall_mem.mp hdata x hx
    rw [List.forall_iff_forall_mem]
    intro s hs
    rcases bodyCurve_cases x.2 _ s hs with ⟨S', hS', hcase⟩ | ⟨S', hS', rfl⟩
    · have hstep : (0 : ℚ) ≤ x.2.R / 100 := div_nonneg hxB.2.le (by norm_num)
      have hS'0 : 0 ≤ S' := arange_nonneg _ _ S' hstep hS'
      rcases hcase with rfl | ⟨-, rfl⟩ <;>
        exact phi_body_nonneg x.2 hxB.1 hxB.2 S' hS'0
    · exact phi_body_nonneg x.2 hxB.1 hxB.2 _ (abs_nonneg _)
  · rw [List.forall_iff_forall_mem]
    intro s hs
    rw [allCurve, List.mem_map] at hs
    obtain ⟨d, -, rfl⟩ := hs
    show 0 ≤ totalAt data d
    rw [totalAt]
    apply List.sum_nonneg
    intro v hv
    rw [List.mem_map] at hv
    obtain ⟨x, hx, rfl⟩ := hv
    have hxB := List.forall_iff_forall_mem.mp hdata x hx
    exact phi_body_nonneg x.2 hxB.1 hxB.2 _ (abs_nonneg _)

/-- Witness for C4: nonnegative magnitudes for the concrete input
`M = 1`, `R = 1`, `S = 2` and a concrete one-body data set. -/
theorem magnitude_nonneg_witness :
    ((0 : ℚ) ≤ 1 ∧ (0 : ℚ) ≤ 2
      ∧ [("a", Body.mk 1 1 1)].Forall (fun x => 0 ≤ x.2.M ∧ 0 < x.2.R))
    ∧ (0 ≤ -get_phi 1 1 2
       ∧ (curves [("a", Body.mk 1 1 1)]).Forall
           (fun c => c.2.Forall (fun s => 0 ≤ s.2))
       ∧ (allCurve [("a", Body.mk 1 1 1)]).Forall (fun s => 0 ≤ s.2)) :=
  ⟨⟨by decide, by decide, by decide⟩,
   magnitude_nonneg 1 1 2 [("a", Body.mk 1 1 1)] (by decide) (by decide)
     (by decide) (fun _ => by decide) (by decide)⟩

lemma pymax_nonneg (l : List ℚ) (h : ∀ x ∈ l, 0 ≤ x) : 0 ≤ pymax l := by
  induction l with
  | nil => simp [pymax]
  | cons x t ih =>
    cases t with
    | nil => simpa [pymax] using h x (by simp)
    | cons y t' =>
      have h1 : 0 ≤ x := h x (by simp)
      show 0 ≤ max x (pymax (y :: t'))
      exact le_max_iff.mpr (Or.inl h1)

lemma max_S_nonneg (data : List (String × Body))
    (h : ∀ b ∈ data, 0 ≤ b.2.S) : 0 ≤ max_S data := by
  rw [max_S]
  refine mul_nonneg (pymax_nonneg _ ?_) (by norm_num)
  intro x hx
  rw [List.mem_map] at hx
  obtain ⟨b, hb, rfl⟩ := hx
  exact h b hb

/-- Claim C8: every distance value of every sample of every curve is
nonnegative — dense samples at `p.S + S`, mirrored samples only when
`p.S - S > 0`, coarse samples at the nonnegative grid points — and the
aggregate `"all"` curve inherits this. -/
theorem distances_nonneg (data : List (String × Body))
    (hdata : data.Forall (fun x => 0 ≤ x.2.R ∧ 0 ≤ x.2.S)) :
    (curves data).Forall (fun c => c.2.Forall (fun s => 0 ≤ s.1))
    ∧ (allCurve data).Forall (fun s => 0 ≤ s.1) := by
  have hmax : 0 ≤ max_S data :=
    max_S_nonneg data (fun b hb => (List.forall_iff_forall_mem.mp hdata b hb).2)
  have hbin : (0 : ℚ) ≤ max_S data / 1000 := by positivity
  have hcurves : ∀ c ∈ curves data, ∀ s ∈ c.2, 0 ≤ s.1 := by
    intro c hc s hs
    rw [curves, List.mem_map] at hc
    obtain ⟨x, hx, rfl⟩ := hc
    have hxB := List.forall_iff_forall_mem.mp hdata x hx
    rcases bodyCurve_cases x.2 _ s hs with ⟨S', hS', hcase⟩ | ⟨S', hS', rfl⟩
    · have hstep : (0 : ℚ) ≤ x.2.R / 100 := div_nonneg hxB.1 (by norm_num)
      have hS'0 : 0 ≤ S' := arange_nonneg _ _ S' hstep hS'
      rcases hcase with rfl | ⟨hpos, rfl⟩
      · exact add_nonneg hxB.2 hS'0
      · exact hpos.le
    · exact arange_nonneg _ _ S' hbin hS'
  constructor
  · exact List.forall_iff_forall_mem.mpr (fun c hc =>
      List.forall_iff_forall_mem.mpr (hcurves c hc))
  · rw [List.forall_iff_forall_mem]
    intro s hs
    rw [allCurve, List.mem_map] at hs
    obtain ⟨d, hd, rfl⟩ := hs
    have hd' : d ∈ all_S_values data :=
      (List.mergeSort_perm (all_S_values data) _).mem_iff.mp hd
    rw [all_S_values, List.mem_flatMap] at hd'
    obtain ⟨c, hc, hdc⟩ := hd'
    rw [List.mem_map] at hdc
    obtain ⟨s', hs', rfl⟩ := hdc
    exact hcurves c hc s' hs'

/-- Witness for C8: nonnegative distances for a concrete one-body data
set (a Sun-like body with `S = 0`). -/
theorem distances_nonneg_witness :
    ([("sun", Body.mk 1 0 1)].Forall (fun x => 0 ≤ x.2.R ∧ 0 ≤ x.2.S))
    ∧ ((curves [("sun", Body.mk 1 0 1)]).Forall
         (fun c => c.2.Forall (fun s => 0 ≤ s.1))
       ∧ (allCurve [("sun", Body.mk 1 0 1)]).Forall (fun s => 0 ≤ s.1)) :=
  ⟨by decide, distances_nonneg [("sun", Body.mk 1 0 1)] (by decide)⟩

/-- Claim C10: every sample `(d, v)` of a body's curve — dense, mirrored or
coarse — stores `v = -get_phi(p.M, p.R, |p.S - d|)`; moreover for every
dense offset `S` the sample at `p.S + S` is in the curve and, whenever
`p.S - S > 0`, so is the mirrored sample at `p.S - S` carrying the same
value, so the dense region is symmetric about the body's orbital
distance. -/
theorem bodyCurve_samples (p : Body) (base : List ℚ) (hR : 0 ≤ p.R) :
    (bodyCurve p base).Forall
      (fun s => s.2 = -get_phi p.M p.R |p.S - s.1|)
    ∧ (denseGrid p).Forall (fun S =>
        (p.S + S, -get_phi p.M p.R S) ∈ bodyCurve p base
        ∧ (0 < p.S - S → (p.S - S, -get_phi p.M p.R S) ∈ bodyCurve p base)) := by
  have hstep : (0 : ℚ) ≤ p.R / 100 := div_nonneg hR (by norm_num)
  constructor
  · rw [List.forall_iff_forall_mem]
    intro s hs
    rcases bodyCurve_cases p base s hs with ⟨S', hS', hcase⟩ | ⟨S', hS', rfl⟩
    · have hS'0 : 0 ≤ S' := arange_nonneg _ _ S' hstep hS'
      rcases hcase with rfl | ⟨-, rfl⟩
      · show -get_phi p.M p.R S' = -get_phi p.M p.R |p.S - (p.S + S')|
        rw [show p.S - (p.S + S') = -S' by ring, abs_neg, abs_of_nonneg hS'0]
      · show -get_phi p.M p.R S' = -get_phi p.M p.R |p.S - (p.S - S')|
        rw [show p.S - (p.S - S') = S' by ring, abs_of_nonneg hS'0]
    · rfl
  · rw [List.forall_iff_forall_mem]
    intro S hS
    refine ⟨?_, fun hc => ?_⟩
    · exact List.mem_append_left _
        (List.mem_flatMap.mpr ⟨S, hS, List.mem_cons_self _ _⟩)
    · refine List.mem_append_left _ (List.mem_flatMap.mpr ⟨S, hS, ?_⟩)
      rw [List.mem_cons, if_pos hc]
      exact Or.inr (List.mem_singleton_self _)

/-- Witness for C10: the sample/value law and dense symmetry for the
concrete body `M = 1`, `S = 1`, `R = 1` with an empty coarse grid. -/
theorem bodyCurve_samples_witness :
    (0 : ℚ) ≤ (Body.mk 1 1 1).R
    ∧ ((bodyCurve (Body.mk 1 1 1) []).Forall
         (fun s => s.2 = -get_phi (Body.mk 1 1 1).M (Body.mk 1 1 1).R
             |(Body.mk 1 1 1).S - s.1|)
       ∧ (denseGrid (Body.mk 1 1 1)).Forall (fun S =>
           ((Body.mk 1 1 1).S + S,
             -get_phi (Body.mk 1 1 1).M (Body.mk 1 1 1).R S)
               ∈ bodyCurve (Body.mk 1 1 1) []
           ∧ (0 < (Body.mk 1 1 1).S - S →
               ((Body.mk 1 1 1).S - S,
                 -get_phi (Body.mk 1 1 1).M (Body.mk 1 1 1).R S)
                   ∈ bodyCurve (Body.mk 1 1 1) []))) :=
  ⟨by decide, bodyCurve_samples (Body.mk 1 1 1) [] (by decide)⟩
